import Mathlib

/-!
Verification of the `continue_statement` production of the statement-grammar
layer (src/src/parsing/continue_statement.rs) against its specification.

The repository source under `src/` contains only the production itself:

  pub(super) fn continue_statement(input: &str) -> Res<&str, Stmt> {
      context(
          "continue_statement",
          tuple((tag("continue"), ws0, tag(";"))),
      )(input).map(|(next, val)| (next, Stmt::Continue))
  }

The combinator toolkit (`tag`, `ws0`, `tuple`, `context`), the cursor, the
result type and the AST enum are declared elsewhere in the repository, so the
embedding models them from the spec's documented contracts (sections 3, 4.1,
4.2 and 6 of the spec), noted on each definition.  Input text is embedded as a
list of characters; the cursor carries the remaining text plus the absolute
offset already consumed, which the spec uses for diagnostic positions.
-/

/-- Modelled from the spec (section 3, Statement AST node): a closed tagged
union of statement variants; only the variants needed by the control-flow leaf
productions are populated here. -/
inductive Stmt where
  | Continue : Stmt
  | Break : Stmt
deriving DecidableEq, Repr

/-- Modelled from the spec (section 3, Cursor): an immutable view over the
remaining source text plus a monotonically advancing character offset used
for diagnostics. -/
structure Cursor where
  remaining : List Char
  pos : Nat
deriving DecidableEq, Repr

/-- Modelled from the spec (section 7, error taxonomy): the terminal cause of
a parse failure. -/
inductive Cause where
  | ExpectedLiteral : List Char → Cause
  | UnexpectedEndOfInput : Cause
  | UnterminatedBlock : Cause
  | AllAlternativesFailed : Cause
deriving DecidableEq, Repr

/-- Modelled from the spec (section 3, ParseFailure): an ordered stack of
(label, position) context frames — innermost production first — plus a
terminal cause. -/
structure ParseFailure where
  frames : List (String × Nat)
  cause : Cause
deriving DecidableEq, Repr

/-- Modelled from the spec (section 3, ParseResult): either a remaining
cursor paired with a value, or a ParseFailure.  No other states. -/
inductive ParseResult (α : Type) where
  | ok : Cursor × α → ParseResult α
  | error : ParseFailure → ParseResult α
deriving DecidableEq, Repr

/-- Map over the success pair of a ParseResult, as Rust's `Result::map` does
over `(next, val)`; a failure passes through unchanged. -/
def ParseResult.map (f : Cursor × α → Cursor × β) :
    ParseResult α → ParseResult β
  | .ok r => .ok (f r)
  | .error e => .error e

/-- A parser combinator: a pure function from a cursor to a ParseResult
(spec section 4.1). -/
def Parser (α : Type) : Type := Cursor → ParseResult α

/-- Whitespace test used by the whitespace skipper: space, tab, carriage
return or line feed. -/
def isWs (c : Char) : Bool :=
  c = ' ' || c = '\t' || c = '\n' || c = '\r'

/-- Modelled from the spec (sections 4.1 and 6, `literal` / `tag`): succeeds
iff the cursor's remaining text starts with `s`, advancing by the length of
`s`; otherwise fails with `ExpectedLiteral s` at the original cursor, having
consumed nothing. -/
def tag (s : List Char) : Parser Unit := fun c =>
  if s.isPrefixOf c.remaining then
    .ok (⟨c.remaining.drop s.length, c.pos + s.length⟩, ())
  else
    .error ⟨[], .ExpectedLiteral s⟩

/-- Modelled from the spec (section 4.1, `ws0`): consumes zero or more
whitespace characters; always succeeds, never fails. -/
def ws0 : Parser Unit := fun c =>
  .ok (⟨c.remaining.dropWhile isWs, c.pos + (c.remaining.takeWhile isWs).length⟩, ())

/-- Modelled from the spec (section 4.1, `sequence` / `tuple`): runs the three
sub-parsers in order, threading the cursor through each step; short-circuits
and returns the first failure; the result is the tuple of sub-results. -/
def tuple3 (p1 : Parser α) (p2 : Parser β) (p3 : Parser γ) :
    Parser (α × β × γ) := fun c =>
  match p1 c with
  | .error e => .error e
  | .ok (c1, v1) =>
    match p2 c1 with
    | .error e => .error e
    | .ok (c2, v2) =>
      match p3 c2 with
      | .error e => .error e
      | .ok (c3, v3) => .ok (c3, (v1, v2, v3))

/-- Modelled from the spec (section 4.2, `context`): runs `p`; on failure,
pushes `(label, original_start_position)` onto the failure's frame stack and
re-raises; on success, passes through unchanged. -/
def context (label : String) (p : Parser α) : Parser α := fun c =>
  match p c with
  | .ok r => .ok r
  | .error e => .error ⟨(label, c.pos) :: e.frames, e.cause⟩

/-- The characters of the keyword literal `"continue"`. -/
def contChars : List Char := ['c', 'o', 'n', 't', 'i', 'n', 'u', 'e']

/-- The characters of the literal `";"`. -/
def semiChars : List Char := [';']

/-- Embedding of `continue_statement` from
src/src/parsing/continue_statement.rs: wraps
`tuple((tag("continue"), ws0, tag(";")))` in the context label
`"continue_statement"` and maps a successful result to `Stmt::Continue`. -/
def continue_statement : Parser Stmt := fun input =>
  (context "continue_statement" (tuple3 (tag contChars) ws0 (tag semiChars)) input).map
    (fun r => (r.1, Stmt.Continue))

example : continue_statement ⟨"continue;".toList, 0⟩
    = .ok (⟨[], 9⟩, Stmt.Continue) := by decide

example : continue_statement ⟨"continue   ;x".toList, 0⟩
    = .ok (⟨['x'], 12⟩, Stmt.Continue) := by decide

example : continue_statement ⟨"continued = 1;".toList, 0⟩
    = .error ⟨[("continue_statement", 0)], .ExpectedLiteral semiChars⟩ := by decide

/-- Skipping whitespace over a run of whitespace characters followed by the
rest of the input: the run is absorbed into the `takeWhile` part and the
`dropWhile` part starts at the rest. -/
lemma takeWhile_ws_append (w r : List Char) (hw : ∀ x ∈ w, isWs x = true) :
    (w ++ r).takeWhile isWs = w ++ r.takeWhile isWs ∧
    (w ++ r).dropWhile isWs = r.dropWhile isWs := by
  induction w with
  | nil => simp
  | cons a t ih =>
    have ha : isWs a = true := hw a (by simp)
    have ht := ih (fun x hx => hw x (by simp [hx]))
    simp [List.takeWhile_cons, List.dropWhile_cons, ha, ht.1, ht.2]

/-- Master evaluation lemma: `continue_statement` is equivalent to matching
the keyword literal, skipping whitespace, then matching the semicolon, with
each failure wrapped in the single `continue_statement` context frame at the
original position. -/
lemma continue_statement_eq (c : Cursor) :
    continue_statement c =
      if contChars.isPrefixOf c.remaining then
        if semiChars.isPrefixOf ((c.remaining.drop contChars.length).dropWhile isWs) then
          ParseResult.ok
            (⟨((c.remaining.drop contChars.length).dropWhile isWs).drop semiChars.length,
              c.pos + contChars.length
                + ((c.remaining.drop contChars.length).takeWhile isWs).length
                + semiChars.length⟩,
              Stmt.Continue)
        else
          ParseResult.error ⟨[("continue_statement", c.pos)], Cause.ExpectedLiteral semiChars⟩
      else
        ParseResult.error ⟨[("continue_statement", c.pos)], Cause.ExpectedLiteral contChars⟩ := by
  unfold continue_statement context tuple3 tag ws0
  by_cases h1 : contChars.isPrefixOf c.remaining
  · by_cases h2 : semiChars.isPrefixOf ((c.remaining.drop contChars.length).dropWhile isWs)
    · simp [h1, h2, ParseResult.map]
    · simp [h1, h2, ParseResult.map]
  · simp [h1, ParseResult.map]

/-- Success shape: on `"continue"`, then a whitespace run, then `";"`, then
any suffix, the production succeeds, leaves exactly the suffix, and advances
the position by `9 + length of the run`. -/
lemma continue_statement_ok_shape (w suffix : List Char) (pos : Nat)
    (hw : ∀ x ∈ w, isWs x = true) :
    continue_statement ⟨contChars ++ (w ++ ';' :: suffix), pos⟩
      = .ok (⟨suffix, pos + 9 + w.length⟩, .Continue) := by
  have heq := continue_statement_eq ⟨contChars ++ (w ++ ';' :: suffix), pos⟩
  have hd : (contChars ++ (w ++ ';' :: suffix)).drop contChars.length
      = w ++ ';' :: suffix := List.drop_left _ _
  have hsp := takeWhile_ws_append w (';' :: suffix) hw
  have hsemi : isWs ';' = false := by decide
  have hpre : contChars.isPrefixOf (contChars ++ (w ++ ';' :: suffix)) = true := by
    simp [List.isPrefixOf_iff_prefix]
  simp only [heq, hd, hsp.1, hsp.2, hpre, List.takeWhile_cons, List.dropWhile_cons,
    hsemi, if_true, Bool.false_eq_true, if_false] at heq ⊢
  have hpre2 : semiChars.isPrefixOf (';' :: suffix) = true := by
    simp [semiChars, List.isPrefixOf_iff_prefix]
  simp only [hpre2, if_true]
  have harith : pos + contChars.length + (w ++ []).length + semiChars.length
      = pos + 9 + w.length := by
    simp [contChars, semiChars]; omega
  rw [harith]
  simp [semiChars]

/-- Failure shape when the keyword matched but no `";"` follows the
whitespace run: a single context frame at the original position with cause
`ExpectedLiteral ";"`. -/
lemma continue_statement_err_semi (t : List Char) (pos : Nat)
    (h : semiChars.isPrefixOf (t.dropWhile isWs) = false) :
    continue_statement ⟨contChars ++ t, pos⟩
      = .error ⟨[("continue_statement", pos)], .ExpectedLiteral semiChars⟩ := by
  have heq := continue_statement_eq ⟨contChars ++ t, pos⟩
  have hd : (contChars ++ t).drop contChars.length = t := List.drop_left _ _
  have hpre : contChars.isPrefixOf (contChars ++ t) = true := by
    simp [List.isPrefixOf_iff_prefix]
  simp only [hd, hpre, h, if_true, Bool.false_eq_true, if_false] at heq
  exact heq

/-- Failure shape when the input does not start with the keyword literal:
a single context frame at the original position with cause
`ExpectedLiteral "continue"`. -/
lemma continue_statement_err_kw (input : List Char) (pos : Nat)
    (h : contChars.isPrefixOf input = false) :
    continue_statement ⟨input, pos⟩
      = .error ⟨[("continue_statement", pos)], .ExpectedLiteral contChars⟩ := by
  have heq := continue_statement_eq ⟨input, pos⟩
  simp only [h, Bool.false_eq_true, if_false] at heq
  exact heq

/-- Success inversion: whenever `continue_statement` succeeds, the input
decomposes as the keyword, a whitespace run, `";"` and a suffix, and the
result is exactly the suffix cursor with `Stmt.Continue`. -/
lemma continue_statement_ok_inv (input : List Char) (pos : Nat) (r : Cursor × Stmt)
    (h : continue_statement ⟨input, pos⟩ = .ok r) :
    ∃ w suffix, (∀ x ∈ w, isWs x = true) ∧
      input = contChars ++ (w ++ ';' :: suffix) ∧
      r = (⟨suffix, pos + 9 + w.length⟩, Stmt.Continue) := by
  by_cases h1 : contChars.isPrefixOf input = true
  · obtain ⟨t, ht⟩ : ∃ t, input = contChars ++ t := by
      rw [List.isPrefixOf_iff_prefix] at h1
      obtain ⟨t, ht⟩ := h1
      exact ⟨t, ht.symm⟩
    subst ht
    by_cases h2 : semiChars.isPrefixOf (t.dropWhile isWs) = true
    · obtain ⟨s, hs⟩ : ∃ s, t.dropWhile isWs = ';' :: s := by
        rw [List.isPrefixOf_iff_prefix] at h2
        obtain ⟨s, hs⟩ := h2
        exact ⟨s, by simpa [semiChars] using hs.symm⟩
      have hw : ∀ x ∈ t.takeWhile isWs, isWs x = true :=
        fun x hx => List.mem_takeWhile_imp hx
      have hdecomp : t = t.takeWhile isWs ++ ';' :: s := by
        conv_lhs => rw [← List.takeWhile_append_dropWhile isWs t]
        rw [hs]
      have hok := continue_statement_ok_shape (t.takeWhile isWs) s pos hw
      rw [← hdecomp] at hok
      have hr := (h.symm.trans hok)
      refine ⟨t.takeWhile isWs, s, hw, by rw [← hdecomp], ?_⟩
      injection hr
    · rw [continue_statement_err_semi t pos (Bool.eq_false_iff.mpr h2)] at h
      simp at h
  · rw [continue_statement_err_kw input pos (Bool.eq_false_iff.mpr h1)] at h
    simp at h

/-- C1: for every input of the form `"continue"`, then zero or more
whitespace characters, then `";"`, the parser succeeds with value
`Stmt.Continue` and the remaining cursor points exactly past the `";"`:
the remaining text is empty and the position has advanced by
`9 + length of the whitespace run` characters. -/
theorem C1_continue_ws_semi (w : List Char) (pos : Nat)
    (hw : ∀ x ∈ w, isWs x = true) :
    continue_statement ⟨contChars ++ (w ++ [';']), pos⟩
      = .ok (⟨[], pos + 9 + w.length⟩, .Continue) :=
  continue_statement_ok_shape w [] pos hw

/-- C1 witness: `"continue   ;"` (three spaces) parses to `Stmt.Continue`
consuming all 12 characters; `"continue;"` is the run-length-zero case. -/
theorem C1_continue_ws_semi_witness :
    (∀ x ∈ ([' ', ' ', ' '] : List Char), isWs x = true) ∧
    continue_statement ⟨contChars ++ ([' ', ' ', ' '] ++ [';']), 0⟩
      = .ok (⟨[], 0 + 9 + [' ', ' ', ' '].length⟩, .Continue) :=
  ⟨by decide, C1_continue_ws_semi [' ', ' ', ' '] 0 (by decide)⟩

/-- C2 as literally stated is false: the input `"continue ;"` is of the
claimed form — `"continue"`, zero whitespace characters, then a character
(`' '`) other than `';'` — yet the parser succeeds on it, because the
whitespace skipper absorbs the space and then finds the `';'`. -/
theorem C2_counterexample :
    (∃ w ch r2, (∀ x ∈ w, isWs x = true) ∧ ch ≠ ';' ∧
      contChars ++ [' ', ';'] = contChars ++ (w ++ ch :: r2)) ∧
    continue_statement ⟨contChars ++ [' ', ';'], 0⟩
      = .ok (⟨[], 10⟩, .Continue) := by
  refine ⟨⟨[], ' ', [';'], ?_, ?_, ?_⟩, ?_⟩
  · intro x hx
    simp at hx
  · decide
  · decide
  · decide

/-- Helper: after the keyword and a whitespace run, if the input continues
with end-of-input or a character that is neither whitespace nor `';'`, the
production fails with the single `continue_statement` frame at the original
position and cause `ExpectedLiteral ";"`. -/
lemma no_semi_after_ws_fails (w rest : List Char) (pos : Nat)
    (hw : ∀ x ∈ w, isWs x = true)
    (hrest : rest = [] ∨ ∃ ch r2, rest = ch :: r2 ∧ isWs ch = false ∧ ch ≠ ';') :
    continue_statement ⟨contChars ++ (w ++ rest), pos⟩
      = .error ⟨[("continue_statement", pos)], .ExpectedLiteral semiChars⟩ := by
  apply continue_statement_err_semi
  have hsp := takeWhile_ws_append w rest hw
  rw [hsp.2]
  rcases hrest with hnil | ⟨ch, r2, hcons, hch, hne⟩
  · simp [hnil, semiChars, List.isPrefixOf]
  · rw [hcons]
    rw [List.dropWhile_cons]
    simp only [hch, Bool.false_eq_true, if_false]
    have hbe : ((';' : Char) == ch) = false :=
      beq_eq_false_iff_ne.mpr (fun hc => hne hc.symm)
    simp [semiChars, List.isPrefixOf, hbe]

/-- C2 amended: for every input consisting of `"continue"`, a whitespace
run, and then either end-of-input or a character that is neither whitespace
nor `';'`, the parser fails; the failure's only (hence innermost) context
frame is `("continue_statement", original position)` and its terminal cause
is `ExpectedLiteral ";"`. -/
theorem C2_no_semi_fails (w rest : List Char) (pos : Nat)
    (hw : ∀ x ∈ w, isWs x = true)
    (hrest : rest = [] ∨ ∃ ch r2, rest = ch :: r2 ∧ isWs ch = false ∧ ch ≠ ';') :
    continue_statement ⟨contChars ++ (w ++ rest), pos⟩
      = .error ⟨[("continue_statement", pos)], .ExpectedLiteral semiChars⟩ :=
  no_semi_after_ws_fails w rest pos hw hrest

/-- C2 witness: `"continue "` — the keyword, one space, end-of-input — fails
with the single frame `("continue_statement", 0)` and cause
`ExpectedLiteral ";"`. -/
theorem C2_no_semi_fails_witness :
    (∀ x ∈ ([' '] : List Char), isWs x = true) ∧
    continue_statement ⟨contChars ++ ([' '] ++ []), 0⟩
      = .error ⟨[("continue_statement", 0)], .ExpectedLiteral semiChars⟩ :=
  ⟨by decide, C2_no_semi_fails [' '] [] 0 (by decide) (Or.inl rfl)⟩

/-- Modelled from the spec (section 4.1, `literal`): succeeds iff the
cursor's remaining text starts with `s`; advances by the length of `s`;
fails with `ExpectedLiteral s` otherwise. -/
def literal (s : List Char) : Parser Unit := fun c =>
  if s.isPrefixOf c.remaining then
    .ok (⟨c.remaining.drop s.length, c.pos + s.length⟩, ())
  else
    .error ⟨[], .ExpectedLiteral s⟩

/-- Modelled from the spec (section 4.1, `sequence`), at the arity used by
the reference definition: succeeds iff every sub-parser succeeds in order on
the cursor threaded through each step; short-circuits and returns the first
failure; result is the tuple of sub-results. -/
def sequence3 (p1 : Parser α) (p2 : Parser β) (p3 : Parser γ) :
    Parser (α × β × γ) := fun c =>
  match p1 c with
  | .error e => .error e
  | .ok (c1, v1) =>
    match p2 c1 with
    | .error e => .error e
    | .ok (c2, v2) =>
      match p3 c2 with
      | .error e => .error e
      | .ok (c3, v3) => .ok (c3, (v1, v2, v3))

/-- Modelled from the spec (section 4.3): the reference definition
`context("continue_statement", sequence(literal("continue"), ws0,
literal(";")))` with a successful result mapped to `Statement::Continue`. -/
def continue_statement_ref : Parser Stmt := fun c =>
  match context "continue_statement" (sequence3 (literal contChars) ws0 (literal semiChars)) c with
  | .ok (next, _) => .ok (next, Stmt.Continue)
  | .error e => .error e

/-- C3: the implementation and the spec's reference definition agree on
every input — same remaining cursor and value on success, same failure
otherwise. -/
theorem C3_matches_reference (c : Cursor) :
    continue_statement c = continue_statement_ref c := by
  have hseq : @sequence3 = @tuple3 := rfl
  have hlit : literal = tag := rfl
  unfold continue_statement continue_statement_ref
  rw [hseq, hlit]
  cases h : context "continue_statement" (tuple3 (tag contChars) ws0 (tag semiChars)) c with
  | ok r =>
    obtain ⟨next, v⟩ := r
    rfl
  | error e => rfl

/-- An identifier-continuation character: an ASCII letter, a digit, or an
underscore. -/
def isIdentCont (ch : Char) : Bool :=
  ch.isAlphanum || ch = '_'

/-- C4: when the keyword `"continue"` is immediately followed by an
identifier-continuation character (as in `"continued = 1;"`), the production
does not succeed: it fails outright (the `";"` literal rejects the
identifier character), so it never yields `Stmt.Continue` with the cursor
positioned just past the 8 keyword characters. -/
theorem C4_no_ident_glue (ch : Char) (rest : List Char) (pos : Nat)
    (h : isIdentCont ch = true) :
    continue_statement ⟨contChars ++ (ch :: rest), pos⟩
      = .error ⟨[("continue_statement", pos)], .ExpectedLiteral semiChars⟩ := by
  have hne : ch ≠ ';' := by
    intro hc
    rw [hc] at h
    simp [isIdentCont, Char.isAlphanum, Char.isAlpha, Char.isUpper, Char.isLower,
      Char.isDigit] at h
  have hws : isWs ch = false := by
    unfold isIdentCont at h
    rcases Bool.or_eq_true_iff.mp h with ha | hu
    · by_contra hb
      rw [Bool.not_eq_false] at hb
      unfold isWs at hb
      rcases Bool.or_eq_true_iff.mp hb with hb | hr
      · rcases Bool.or_eq_true_iff.mp hb with hb | ht
        · rcases Bool.or_eq_true_iff.mp hb with hsp | htb
          · rw [decide_eq_true_iff] at hsp
            rw [hsp] at ha
            simp [Char.isAlphanum, Char.isAlpha, Char.isUpper, Char.isLower,
              Char.isDigit] at ha
          · rw [decide_eq_true_iff] at htb
            rw [htb] at ha
            simp [Char.isAlphanum, Char.isAlpha, Char.isUpper, Char.isLower,
              Char.isDigit] at ha
        · rw [decide_eq_true_iff] at ht
          rw [ht] at ha
          simp [Char.isAlphanum, Char.isAlpha, Char.isUpper, Char.isLower,
            Char.isDigit] at ha
      · rw [decide_eq_true_iff] at hr
        rw [hr] at ha
        simp [Char.isAlphanum, Char.isAlpha, Char.isUpper, Char.isLower,
          Char.isDigit] at ha
    · rw [decide_eq_true_iff] at hu
      rw [hu]
      decide
  have := no_semi_after_ws_fails [] (ch :: rest) pos (by intro x hx; simp at hx)
    (Or.inr ⟨ch, rest, rfl, hws, hne⟩)
  simpa using this

/-- C4 witness: `"continued = 1;"` fails to parse as a continue statement. -/
theorem C4_no_ident_glue_witness :
    isIdentCont 'd' = true ∧
    continue_statement ⟨contChars ++ ('d' :: " = 1;".toList), 0⟩
      = .error ⟨[("continue_statement", 0)], .ExpectedLiteral semiChars⟩ :=
  ⟨by decide, C4_no_ident_glue 'd' (" = 1;".toList) 0 (by decide)⟩

/-- C5: exact characterization of the accepted language — the production
succeeds on an input if and only if it is `"continue"`, then zero or more
whitespace characters, then `";"`, then an arbitrary suffix; on success the
remaining cursor is exactly that untouched suffix, with the position
advanced by the consumed `9 + length of the whitespace run` characters, and
no end-of-input is required after the `";"`. -/
theorem C5_accepted_language (input : List Char) (pos : Nat) :
    (∃ r, continue_statement ⟨input, pos⟩ = .ok r) ↔
    (∃ w suffix, (∀ x ∈ w, isWs x = true) ∧
      input = contChars ++ (w ++ ';' :: suffix) ∧
      continue_statement ⟨input, pos⟩
        = .ok (⟨suffix, pos + 9 + w.length⟩, .Continue)) := by
  constructor
  · rintro ⟨r, hr⟩
    obtain ⟨w, s, hw, hdec, hres⟩ := continue_statement_ok_inv input pos r hr
    exact ⟨w, s, hw, hdec, by rw [hr, hres]⟩
  · rintro ⟨w, s, hw, hdec, hres⟩
    exact ⟨_, hres⟩

/-- C5 witness: `"continue; x"` — trailing text after the `";"` is accepted
and returned untouched. -/
theorem C5_accepted_language_witness :
    ∃ w suffix, (∀ x ∈ w, isWs x = true) ∧
      (contChars ++ (';' :: [' ', 'x']) : List Char)
        = contChars ++ (w ++ ';' :: suffix) ∧
      continue_statement ⟨contChars ++ (';' :: [' ', 'x']), 0⟩
        = .ok (⟨suffix, 0 + 9 + w.length⟩, .Continue) :=
  (C5_accepted_language (contChars ++ (';' :: [' ', 'x'])) 0).mp
    ⟨(⟨[' ', 'x'], 9⟩, .Continue), by decide⟩

/-- C6: every failure of `continue_statement` carries the position of the
original cursor it was given — its frame stack is exactly the single frame
`("continue_statement", original position)`, even when the failure happens
at the `";"` after the keyword and whitespace were already consumed. -/
theorem C6_failure_at_original_pos (c : Cursor) (e : ParseFailure)
    (h : continue_statement c = .error e) :
    e.frames = [("continue_statement", c.pos)] := by
  have heq := continue_statement_eq c
  rw [h] at heq
  by_cases h1 : contChars.isPrefixOf c.remaining = true
  · by_cases h2 : semiChars.isPrefixOf
        ((c.remaining.drop contChars.length).dropWhile isWs) = true
    · rw [if_pos h1, if_pos h2] at heq
      exact absurd heq (by simp)
    · rw [if_pos h1, if_neg h2] at heq
      injection heq with h3
      rw [h3]
  · rw [if_neg h1] at heq
    injection heq with h3
    rw [h3]

/-- C6 witness: the failure on `"continue "` (keyword, space, end-of-input)
— where the keyword and the space were consumed before the `";"` literal
failed — still carries the original position 0 in its only frame. -/
theorem C6_failure_at_original_pos_witness :
    ({ frames := [("continue_statement", 0)],
       cause := Cause.ExpectedLiteral semiChars } : ParseFailure).frames
      = [("continue_statement", 0)] :=
  C6_failure_at_original_pos ⟨contChars ++ [' '], 0⟩
    ⟨[("continue_statement", 0)], .ExpectedLiteral semiChars⟩ (by decide)

/-- C7: the context wrapper used by `continue_statement` is transparent on
success and purely decorative on failure: if the inner
`tuple3 (tag "continue") ws0 (tag ";")` succeeds, `context` returns the
result unchanged; if it fails, `context` returns the same failure with
exactly one extra frame `("continue_statement", original position)` pushed
on top. -/
theorem C7_context_transparent (c : Cursor) :
    (∀ r, tuple3 (tag contChars) ws0 (tag semiChars) c = .ok r →
      context "continue_statement" (tuple3 (tag contChars) ws0 (tag semiChars)) c
        = .ok r) ∧
    (∀ e, tuple3 (tag contChars) ws0 (tag semiChars) c = .error e →
      context "continue_statement" (tuple3 (tag contChars) ws0 (tag semiChars)) c
        = .error ⟨("continue_statement", c.pos) :: e.frames, e.cause⟩) := by
  constructor
  · intro r hr
    unfold context
    rw [hr]
  · intro e he
    unfold context
    rw [he]

/-- C7 witness: on the empty input the inner sequence fails with a bare
`ExpectedLiteral "continue"` failure, and `context` returns that failure
with exactly the one frame `("continue_statement", 0)` pushed on top. -/
theorem C7_context_transparent_witness :
    context "continue_statement" (tuple3 (tag contChars) ws0 (tag semiChars)) ⟨[], 0⟩
      = .error ⟨[("continue_statement", 0)], .ExpectedLiteral contChars⟩ :=
  (C7_context_transparent ⟨[], 0⟩).2 ⟨[], .ExpectedLiteral contChars⟩ (by decide)

/-- C8: cursor monotonicity with strict progress — on every success the
returned cursor's position is not before the input cursor's, and at least
the 9 characters of `"continue"` and `";"` have been consumed. -/
theorem C8_progress (c : Cursor) (next : Cursor) (v : Stmt)
    (h : continue_statement c = .ok (next, v)) :
    c.pos ≤ next.pos ∧ c.pos + 9 ≤ next.pos := by
  obtain ⟨w, s, hw, hdec, hres⟩ :=
    continue_statement_ok_inv c.remaining c.pos (next, v) h
  have hnext : next = ⟨s, c.pos + 9 + w.length⟩ := congrArg Prod.fst hres
  rw [hnext]
  show c.pos ≤ c.pos + 9 + w.length ∧ c.pos + 9 ≤ c.pos + 9 + w.length
  omega

/-- C8 witness: parsing `"continue;"` from position 0 advances to
position 9 ≥ 0 and 9 ≥ 0 + 9. -/
theorem C8_progress_witness :
    (0 : Nat) ≤ (⟨[], 9⟩ : Cursor).pos ∧ (0 : Nat) + 9 ≤ (⟨[], 9⟩ : Cursor).pos :=
  C8_progress ⟨contChars ++ [';'], 0⟩ ⟨[], 9⟩ .Continue (by decide)

/-- C9: determinism — `continue_statement` is a pure function of its input
cursor, so two applications to the same cursor yield structurally identical
results: the same value and cursor on success and an identical failure
(frames, labels, positions and cause) otherwise. -/
theorem C9_deterministic (c : Cursor) (r1 r2 : ParseResult Stmt)
    (h1 : continue_statement c = r1) (h2 : continue_statement c = r2) :
    r1 = r2 :=
  h1.symm.trans h2

/-- C9 witness: two runs on `"continue;"` agree. -/
theorem C9_deterministic_witness :
    (ParseResult.ok (⟨[], 9⟩, Stmt.Continue) : ParseResult Stmt)
      = .ok (⟨[], 9⟩, Stmt.Continue) :=
  C9_deterministic ⟨contChars ++ [';'], 0⟩
    (.ok (⟨[], 9⟩, .Continue)) (.ok (⟨[], 9⟩, .Continue)) (by decide) (by decide)

/-- C10: on every input that does not start with the literal `"continue"`
— including inputs starting with whitespace (no leading-whitespace skipping
is performed) and the empty input — the production fails without consuming
anything, with cause `ExpectedLiteral "continue"` wrapped in the single
`continue_statement` frame at the original position. -/
theorem C10_wrong_keyword_fails (input : List Char) (pos : Nat)
    (h : contChars.isPrefixOf input = false) :
    continue_statement ⟨input, pos⟩
      = .error ⟨[("continue_statement", pos)], .ExpectedLiteral contChars⟩ :=
  continue_statement_err_kw input pos h

/-- C10 witness: `" continue;"` — a leading space is not skipped, so the
keyword literal fails at position 0. -/
theorem C10_wrong_keyword_fails_witness :
    (contChars.isPrefixOf (' ' :: (contChars ++ [';'])) = false) ∧
    continue_statement ⟨' ' :: (contChars ++ [';']), 0⟩
      = .error ⟨[("continue_statement", 0)], .ExpectedLiteral contChars⟩ :=
  ⟨by decide, C10_wrong_keyword_fails (' ' :: (contChars ++ [';'])) 0 (by decide)⟩
